import Mathlib

/-!
Shallow embedding of the fgvf traffic-log analysis core
(`src/modules/data_processor.py`, and the resampling core of
`src/modules/visualizer.py`) together with proofs settling the frozen
claims about its specification.

Conventions of the embedding:
* Python strings are modelled as `List Char` internally (`String` at the
  API boundary); machine floats carrying byte counts are modelled as `Int`
  (the claims only concern integer byte values), ratios as `Rat`.
* A pandas cell is a `Value`; `NaN`/`NaT` is `Value.null`; a key absent
  from a record is likewise a missing value (pandas materializes it as
  `NaN` when assembling a `DataFrame` from dicts).
* A `DataFrame` is a `Frame`: an ordered column-name list plus an ordered
  list of records (association lists from column name to cell).
* Fallible operations return `Option`/`Except`; exceptions caught by the
  source's `try`/`except` blocks correspond to `none`/`.error`.
-/

/-- Calendar date-time as produced by Python `datetime.strptime`
(second precision, which is all the three source formats carry). -/
structure DateTime where
  year : Nat
  month : Nat
  day : Nat
  hour : Nat
  minute : Nat
  second : Nat
deriving DecidableEq, Repr

/-- A pandas cell value: string, integer number, datetime, or NaN/NaT
(`null`).  Fractional numerics do not occur in any claim input, so numbers
are carried as `Int`. -/
inductive Value where
  | str (s : String)
  | num (n : Int)
  | dt (d : DateTime)
  | null
deriving DecidableEq, Repr

/-- One parsed log record: an ordered association list from column name to
cell, mirroring a Python dict's insertion order. -/
abbrev Record := List (String × Value)

/-- A pandas DataFrame: ordered column names plus ordered records.  A key
missing from a record is a `NaN` cell of that column. -/
structure Frame where
  cols : List String
  rows : List Record
deriving DecidableEq, Repr

/-- Dict lookup on a record. -/
def lookupR : Record → String → Option Value
  | [], _ => none
  | (a, b) :: t, k => if a = k then some b else lookupR t k

/-- Dict assignment on a record: overwrite in place, else append
(Python dict insertion-order semantics). -/
def setR : Record → String → Value → Record
  | [], k, v => [(k, v)]
  | (a, b) :: t, k, v => if a = k then (k, v) :: t else (a, b) :: setR t k v

/-- Remove a key from a record (dropping a DataFrame column, row side). -/
def eraseR (r : Record) (k : String) : Record := r.filter (fun p => p.1 ≠ k)

theorem lookupR_setR_eq (r : Record) (k : String) (v : Value) :
    lookupR (setR r k v) k = some v := by
  induction r with
  | nil => simp [setR, lookupR]
  | cons p t ih =>
    by_cases h : p.1 = k
    · simp [setR, h, lookupR]
    · simp [setR, h, lookupR, ih]

theorem lookupR_setR_ne (r : Record) (k k' : String) (v : Value) (h : k ≠ k') :
    lookupR (setR r k v) k' = lookupR r k' := by
  induction r with
  | nil => simp [setR, lookupR, h]
  | cons p t ih =>
    by_cases hp : p.1 = k
    · simp [setR, hp, lookupR, h]
    · simp [setR, hp, lookupR, ih]

/-! ### Character classes (translating the source's regex classes) -/

/-- `[a-zA-Z0-9_-]`, the key class of the key=value regex at
`data_processor.py:58`. -/
def isKeyChar (c : Char) : Bool :=
  c.isAlpha || c.isDigit || c = '_' || c = '-'

/-- `[^"\s]`, the unquoted-value class of the key=value regex. -/
def isValChar (c : Char) : Bool :=
  !c.isWhitespace && c ≠ '"'

/-- `\w` (ASCII, as all claim inputs are ASCII). -/
def isWordChar (c : Char) : Bool :=
  c.isAlpha || c.isDigit || c = '_'

/-- Split a character list at every occurrence of a separator character
(Python `str.split(sep)` semantics: keeps empty segments). -/
def splitOnChar (sep : Char) : List Char → List (List Char)
  | [] => [[]]
  | c :: t =>
    let r := splitOnChar sep t
    if c = sep then [] :: r
    else
      match r with
      | h :: t' => (c :: h) :: t'
      | [] => [[c]]

/-- Python `str.strip()` (leading and trailing whitespace). -/
def trimChars (cs : List Char) : List Char :=
  ((cs.dropWhile Char.isWhitespace).reverse.dropWhile Char.isWhitespace).reverse

/-- Python `str.strip(':')` as used on whitespace-columnar keys
(`data_processor.py:164`). -/
def trimColons (cs : List Char) : List Char :=
  ((cs.dropWhile (· = ':')).reverse.dropWhile (· = ':')).reverse

/-- `re.split(r'\s+', s)` on an already stripped string: whitespace-run
tokenisation. -/
def wsSplitAux : List Char → List Char → List (List Char)
  | [], acc => if acc = [] then [] else [acc.reverse]
  | c :: t, acc =>
    if c.isWhitespace then
      if acc = [] then wsSplitAux t [] else acc.reverse :: wsSplitAux t []
    else wsSplitAux t (c :: acc)

def wsSplit (cs : List Char) : List (List Char) := wsSplitAux cs []

/-- Numeric value of a digit string (the scanners guarantee digits only). -/
def readNat (cs : List Char) : Nat :=
  cs.foldl (fun a c => 10 * a + (c.toNat - 48)) 0

/-- Python `int(s)`-style integer literal recognition, used to model
`pd.to_numeric(..., errors='coerce')` on the integer literals the claims
exercise (fractional literals are outside every claim input). -/
def parseIntStr (cs : List Char) : Option Int :=
  match cs with
  | '-' :: t => if t ≠ [] ∧ t.all Char.isDigit then some (-(readNat t : Int)) else none
  | _ => if cs ≠ [] ∧ cs.all Char.isDigit then some (readNat cs : Int) else none

/-! ### Timestamp regular patterns (`data_processor.py:51-55`)

Each of the three patterns is compiled to an explicit matcher over
`List Char`.  `searchWith m` is `re.search`: the leftmost position where
the matcher succeeds.  The matchers return the matched substring
(group 1 of the source patterns). -/

/-- Exactly `n` characters of class `p` (a fixed-count regex quantifier). -/
def takeExact (p : Char → Bool) (n : Nat) (cs : List Char) :
    Option (List Char × List Char) :=
  let t := cs.take n
  if t.length = n ∧ t.all p then some (t, cs.drop n) else none

/-- A literal character. -/
def takeLit (c : Char) : List Char → Option (List Char)
  | d :: t => if d = c then some t else none
  | [] => none

/-- `\s+` (greedy; the following pattern element is never whitespace, so
the maximal run is what the regex engine commits to). -/
def takeWs1 (cs : List Char) : Option (List Char × List Char) :=
  let w := cs.takeWhile Char.isWhitespace
  if w = [] then none else some (w, cs.dropWhile Char.isWhitespace)

/-- `\d{1,2}` followed by a non-digit pattern element: the digit run must
have length 1 or 2 (a longer run makes the engine backtrack and fail,
since the next element of every source pattern is not a digit). -/
def takeDigits12 (cs : List Char) : Option (List Char × List Char) :=
  let t := cs.takeWhile Char.isDigit
  if t.length = 1 ∨ t.length = 2 then some (t, cs.drop t.length) else none

/-- Pattern `(\d{4}-\d{2}-\d{2}\s+\d{2}:\d{2}:\d{2})` matched at the head. -/
def matchTS1 (cs : List Char) : Option (List Char) := do
  let (y, r1) ← takeExact Char.isDigit 4 cs
  let r2 ← takeLit '-' r1
  let (mo, r3) ← takeExact Char.isDigit 2 r2
  let r4 ← takeLit '-' r3
  let (d, r5) ← takeExact Char.isDigit 2 r4
  let (w, r6) ← takeWs1 r5
  let (h, r7) ← takeExact Char.isDigit 2 r6
  let r8 ← takeLit ':' r7
  let (mi, r9) ← takeExact Char.isDigit 2 r8
  let r10 ← takeLit ':' r9
  let (s, _) ← takeExact Char.isDigit 2 r10
  pure (y ++ '-' :: mo ++ '-' :: d ++ w ++ h ++ ':' :: mi ++ ':' :: s)

/-- Pattern `(\w{3}\s+\d{1,2}\s+\d{2}:\d{2}:\d{2})` matched at the head. -/
def matchTS2 (cs : List Char) : Option (List Char) := do
  let (mon, r1) ← takeExact isWordChar 3 cs
  let (w1, r2) ← takeWs1 r1
  let (d, r3) ← takeDigits12 r2
  let (w2, r4) ← takeWs1 r3
  let (h, r5) ← takeExact Char.isDigit 2 r4
  let r6 ← takeLit ':' r5
  let (mi, r7) ← takeExact Char.isDigit 2 r6
  let r8 ← takeLit ':' r7
  let (s, _) ← takeExact Char.isDigit 2 r8
  pure (mon ++ w1 ++ d ++ w2 ++ h ++ ':' :: mi ++ ':' :: s)

/-- Pattern `(\d{1,2}/\d{1,2}/\d{4}\s+\d{2}:\d{2}:\d{2})` matched at the head. -/
def matchTS3 (cs : List Char) : Option (List Char) := do
  let (d1, r1) ← takeDigits12 cs
  let r2 ← takeLit '/' r1
  let (d2, r3) ← takeDigits12 r2
  let r4 ← takeLit '/' r3
  let (y, r5) ← takeExact Char.isDigit 4 r4
  let (w, r6) ← takeWs1 r5
  let (h, r7) ← takeExact Char.isDigit 2 r6
  let r8 ← takeLit ':' r7
  let (mi, r9) ← takeExact Char.isDigit 2 r8
  let r10 ← takeLit ':' r9
  let (s, _) ← takeExact Char.isDigit 2 r10
  pure (d1 ++ '/' :: d2 ++ '/' :: y ++ w ++ h ++ ':' :: mi ++ ':' :: s)

/-- `re.search`: try the matcher at each successive position, leftmost
success wins. -/
def searchWith (m : List Char → Option (List Char)) : List Char → Option (List Char)
  | [] => none
  | c :: t => (m (c :: t)).orElse fun _ => searchWith m t

/-- The source's pattern loop (`data_processor.py:65-83`): each pattern is
searched over the whole line in order; the first pattern with a match
anywhere wins and the loop breaks (even if the subsequent date parse
fails). -/
def extractTimestampStr (line : List Char) : Option (List Char) :=
  (searchWith matchTS1 line).orElse fun _ =>
    (searchWith matchTS2 line).orElse fun _ => searchWith matchTS3 line

/-! ### `datetime.strptime` for the three formats (`data_processor.py:71-75`)

Each model consumes the whole input (strptime rejects unconverted
trailing data), validates field ranges, and validates the day against the
calendar as the `datetime` constructor does. -/

def isLeapYear (y : Nat) : Bool :=
  (y % 4 = 0 && y % 100 ≠ 0) || y % 400 = 0

def daysInMonth (y m : Nat) : Nat :=
  if m = 2 then (if isLeapYear y then 29 else 28)
  else if m = 4 ∨ m = 6 ∨ m = 9 ∨ m = 11 then 30
  else 31

def mkDateTime (y mo d h mi s : Nat) : Option DateTime :=
  if 1 ≤ mo ∧ mo ≤ 12 ∧ 1 ≤ d ∧ d ≤ daysInMonth y mo ∧ h ≤ 23 ∧ mi ≤ 59 ∧ s ≤ 59
  then some ⟨y, mo, d, h, mi, s⟩ else none

/-- `%H:%M:%S` tail shared by all three formats: two-digit fields
separated by colons, consuming the rest of the input. -/
def readTimeTail (cs : List Char) : Option (Nat × Nat × Nat) := do
  let (h, r1) ← takeExact Char.isDigit 2 cs
  let r2 ← takeLit ':' r1
  let (mi, r3) ← takeExact Char.isDigit 2 r2
  let r4 ← takeLit ':' r3
  let (s, r5) ← takeExact Char.isDigit 2 r4
  if r5 = [] then pure (readNat h, readNat mi, readNat s) else none

/-- `'%Y-%m-%d %H:%M:%S'`. -/
def strptime1 (cs : List Char) : Option DateTime := do
  let (y, r1) ← takeExact Char.isDigit 4 cs
  let r2 ← takeLit '-' r1
  let (mo, r3) ← takeDigits12 r2
  let r4 ← takeLit '-' r3
  let (d, r5) ← takeDigits12 r4
  let (_, r6) ← takeWs1 r5
  let (h, mi, s) ← readTimeTail r6
  mkDateTime (readNat y) (readNat mo) (readNat d) h mi s

def monthAbbrevs : List String :=
  ["jan", "feb", "mar", "apr", "may", "jun",
   "jul", "aug", "sep", "oct", "nov", "dec"]

/-- `'%b %d %H:%M:%S'`; `%b` is case-insensitive, the year defaults
to 1900 as in `datetime.strptime`. -/
def strptime2 (cs : List Char) : Option DateTime := do
  let (mon, r1) ← takeExact Char.isAlpha 3 cs
  let lowered := String.mk (mon.map Char.toLower)
  let idx ← (monthAbbrevs.indexOf? lowered)
  let (_, r2) ← takeWs1 r1
  let (d, r3) ← takeDigits12 r2
  let (_, r4) ← takeWs1 r3
  let (h, mi, s) ← readTimeTail r4
  mkDateTime 1900 (idx + 1) (readNat d) h mi s

/-- `'%m/%d/%Y %H:%M:%S'`. -/
def strptime3 (cs : List Char) : Option DateTime := do
  let (mo, r1) ← takeDigits12 cs
  let r2 ← takeLit '/' r1
  let (d, r3) ← takeDigits12 r2
  let r4 ← takeLit '/' r3
  let (y, r5) ← takeExact Char.isDigit 4 r4
  let (_, r6) ← takeWs1 r5
  let (h, mi, s) ← readTimeTail r6
  mkDateTime (readNat y) (readNat mo) (readNat d) h mi s

/-- The format loop (`data_processor.py:71-80`): the three formats are
tried in order on the regex-matched substring, first success wins. -/
def parseTimestampStr (cs : List Char) : Option DateTime :=
  (strptime1 cs).orElse fun _ => (strptime2 cs).orElse fun _ => strptime3 cs

/-- Timestamp extraction for one line (`data_processor.py:63-86`):
`none` both when no pattern matches and when the matched substring fails
every format. -/
def extractTimestamp (line : List Char) : Option DateTime :=
  (extractTimestampStr line).bind parseTimestampStr

/-! ### `re.findall` for the key=value pattern (`data_processor.py:58,89`) -/

/-- One attempt of `([a-zA-Z0-9_-]+)=([^"\s]+|"[^"]*")` at the head of the
input: maximal key run, literal `=`, then either a maximal unquoted value
run (tried first by the alternation) or a quoted value.  Returns
(key, raw value including any quotes, rest). -/
def kvTry (cs : List Char) : Option (List Char × List Char × List Char) :=
  let key := cs.takeWhile isKeyChar
  if key = [] then none
  else
    match cs.drop key.length with
    | '=' :: rest1 =>
      if rest1.head? = some '"' then
        let more := rest1.drop 1
        let inner := more.takeWhile (fun c => c ≠ '"')
        (match more.drop inner.length with
         | '"' :: rest2 => some (key, '"' :: (inner ++ ['"']), rest2)
         | _ => none)
      else
        let v := rest1.takeWhile isValChar
        if v = [] then none else some (key, v, rest1.drop v.length)
    | _ => none

/-- `re.findall` scan: leftmost, non-overlapping; on failure the engine
advances one position.  The fuel is the input length (each step consumes
at least one character). -/
def kvScan : Nat → List Char → List (List Char × List Char)
  | 0, _ => []
  | _ + 1, [] => []
  | f + 1, c :: t =>
    match kvTry (c :: t) with
    | some (k, v, rest) => (k, v) :: kvScan f rest
    | none => kvScan f t

def kvFindall (line : List Char) : List (List Char × List Char) :=
  kvScan line.length line

/-- Key normalisation `key.lower().replace('-', '_')`
(`data_processor.py:93`). -/
def normKey (k : List Char) : String :=
  String.mk (k.map (fun c => if c = '-' then '_' else c.toLower))

/-- Quote stripping (`data_processor.py:91-92`). -/
def stripQuotes (v : List Char) : List Char :=
  if v.head? = some '"' ∧ v.getLast? = some '"' then (v.drop 1).dropLast else v

/-- The normalised (key, value) pairs a line contributes. -/
def kvLinePairs (line : List Char) : List (String × String) :=
  (kvFindall line).map (fun p => (normKey p.1, String.mk (stripQuotes p.2)))

/-! ### Calendar arithmetic (for `dt.hour`, `dt.day_name()`, resampling) -/

/-- Days since 1970-01-01 of a proleptic Gregorian civil date
(standard era/year-of-era decomposition). -/
def civilDays (y m d : Nat) : Int :=
  let yy : Int := (y : Int) - (if m ≤ 2 then 1 else 0)
  let era : Int := yy / 400
  let yoe : Int := yy - era * 400
  let mp : Int := ((m : Int) + 9) % 12
  let doy : Int := (153 * mp + 2) / 5 + (d : Int) - 1
  let doe : Int := yoe * 365 + yoe / 4 - yoe / 100 + doy
  era * 146097 + doe - 719468

/-- Weekday index with Monday = 0 (1970-01-01 was a Thursday = 3). -/
def weekdayIdx (dt : DateTime) : Int :=
  (civilDays dt.year dt.month dt.day + 3) % 7

def dayNames : List String :=
  ["Monday", "Tuesday", "Wednesday", "Thursday", "Friday", "Saturday", "Sunday"]

/-- `Timestamp.day_name()` as used by `dt.day_name()`. -/
def dayName (dt : DateTime) : String :=
  dayNames.getD (weekdayIdx dt).toNat ""

/-- Absolute hour index of a datetime: the `'H'` resampling bucket label
(`resample('H')` floors timestamps to the calendar hour). -/
def epochHour (dt : DateTime) : Int :=
  civilDays dt.year dt.month dt.day * 24 + (dt.hour : Int)

/-- Seconds since the epoch (used for the timespan duration). -/
def epochSecs (dt : DateTime) : Int :=
  civilDays dt.year dt.month dt.day * 86400
    + (dt.hour : Int) * 3600 + (dt.minute : Int) * 60 + (dt.second : Int)

/-! ### Line filtering (`data_processor.py:21-24`) -/

/-- `log_content.strip().split('\n')` filtered to non-blank, non-comment
lines. -/
def contentLines (content : List Char) : List (List Char) :=
  (splitOnChar '\n' (trimChars content)).filter
    (fun l => trimChars l ≠ [] ∧ (trimChars l).head? ≠ some '#')

/-! ### Frame assembly shared by the dict-based detectors -/

/-- Column order of `pd.DataFrame(list_of_dicts)`: union of the records'
keys in first-encounter order. -/
def colsOfRecords (rs : List Record) : List String :=
  rs.foldl (fun acc r => r.foldl (fun a p => if p.1 ∈ a then a else a ++ [p.1]) acc) []

/-- `pd.to_numeric(cell, errors='coerce')` on one cell: integer literals
convert, everything else becomes NaN.  (Fractional literals and
datetime-typed cells do not occur in any claim input; both coerce to
`null` here, the latter matching object-dtype coercion.) -/
def numCoerce : Value → Value
  | .num n => .num n
  | .str s => match parseIntStr s.data with
    | some n => .num n
    | none => .null
  | _ => .null

/-- `df[c] = pd.to_numeric(df[c], errors='coerce')` guarded by
`if c in df.columns`. -/
def coerceNumCol (c : String) (f : Frame) : Frame :=
  if c ∈ f.cols then
    { f with rows := f.rows.map (fun r =>
        match lookupR r c with
        | some v => setR r c (numCoerce v)
        | none => r) }
  else f

/-- One step of the synonym merge (`data_processor.py:120-123`):
`df[new] = df[old]; df.drop(columns=[old])`, only when the old column
exists and the new one does not. -/
def mergeStep (f : Frame) (p : String × String) : Frame :=
  if p.1 ∈ f.cols ∧ p.2 ∉ f.cols then
    { cols := f.cols.filter (fun c => c ≠ p.1) ++ [p.2],
      rows := f.rows.map (fun r =>
        match lookupR r p.1 with
        | some v => eraseR (setR r p.2 v) p.1
        | none => r) }
  else f

def synonymPairs : List (String × String) :=
  [("source_ip", "src_ip"), ("destination_ip", "dst_ip"),
   ("source_port", "src_port"), ("destination_port", "dst_port")]

/-- The column-name standardisation loop (`data_processor.py:112-123`). -/
def mergeSynonyms (f : Frame) : Frame :=
  synonymPairs.foldl mergeStep f

/-! ### Detector 2: key=value lines (`data_processor.py:46-129`) -/

/-- The timestamp seed of a line's dict (`data_processor.py:85-86`). -/
def tsInit (line : List Char) : Record :=
  match extractTimestamp line with
  | some t => [("timestamp", Value.dt t)]
  | none => []

/-- The full per-line dict: timestamp seed, then every key=value token
assigned in order (later tokens overwrite earlier keys, and a
`timestamp=...` token overwrites the regex-extracted timestamp). -/
def kvLineRecord (line : List Char) : Record :=
  (kvLinePairs line).foldl (fun d p => setR d p.1 (Value.str p.2)) (tsInit line)

/-- Records of all lines, keeping only non-empty dicts
(`data_processor.py:96-97`). -/
def kvRecords (lines : List (List Char)) : List Record :=
  lines.filterMap (fun l =>
    let r := kvLineRecord l
    if r = [] then none else some r)

/-- The key=value detector: fails (`none`) when no line produced a
record; otherwise assembles the DataFrame, coerces `bytes` and the four
port columns to numeric, and standardises synonym column names. -/
def kvDetect (lines : List (List Char)) : Option Frame :=
  let recs := kvRecords lines
  if recs = [] then none
  else
    let f : Frame := ⟨colsOfRecords recs, recs⟩
    let f := coerceNumCol "bytes" f
    let f := ["src_port", "dst_port", "source_port", "destination_port"].foldl
      (fun g c => coerceNumCol c g) f
    some (mergeSynonyms f)

/-! ### Detector 1: delimited table via `pd.read_csv`
(`data_processor.py:30-44`)

The model covers the default `pd.read_csv` behaviour on the inputs the
claims exercise: comma splitting, first line as header, blank lines
skipped, short rows padded with NaN, and the first data row setting the
row width — that row is never width-policed against the header: any
extra leading fields it has beyond the header become an implicit
(Multi)Index whose fields are dropped from the data cells.  A subsequent
row wider than the established width raises (the detector's atomic
failure).  Column dtype inference converts a column to numeric when
every cell is an integer literal.  (Quoting, duplicate-header mangling
and fractional dtypes are outside every claim input.) -/

def csvRowsBuild (width : Nat) (header : List String) (nidx : Nat) :
    List (List Char) → Option (List Record)
  | [] => some []
  | l :: ls =>
    let parts := splitOnChar ',' l
    if parts.length > width then none
    else
      let cells := parts.drop nidx
      match csvRowsBuild width header nidx ls with
      | some rs => some ((header.zip (cells.map (fun c => Value.str (String.mk c)))) :: rs)
      | none => none

/-- Convert a column to numbers when every one of its present cells is an
integer literal (pandas per-column dtype inference). -/
def inferNumCols (f : Frame) : Frame :=
  { f with rows := f.cols.foldl (fun rs c =>
      let vals := rs.filterMap (fun r => lookupR r c)
      if vals ≠ [] ∧ vals.all (fun v =>
          match v with
          | .str s => (parseIntStr s.data).isSome
          | _ => false) then
        rs.map (fun r =>
          match lookupR r c with
          | some (.str s) =>
            (match parseIntStr s.data with
             | some n => setR r c (.num n)
             | none => r)
          | _ => r)
      else rs) f.rows }

def readCSV (content : List Char) : Except Unit Frame :=
  let ls := (splitOnChar '\n' content).filter (fun l => l ≠ [])
  match ls with
  | [] => .error ()
  | h :: rest =>
    let header := (splitOnChar ',' h).map String.mk
    let w := header.length
    match rest with
    | [] => .ok (inferNumCols ⟨header, []⟩)
    | f0 :: _ =>
      let nidx := (splitOnChar ',' f0).length - w
      let width := w + nidx
      match csvRowsBuild width header nidx rest with
      | some rs => .ok (inferNumCols ⟨header, rs⟩)
      | none => .error ()

/-- `pd.to_datetime(s, errors='raise')` on a single string: the subset of
accepted formats the claims exercise (ISO with `T` or space separator,
and the slashed US form).  Everything else raises (`none`). -/
def toDatetimeLoose (cs : List Char) : Option DateTime :=
  match cs with
  | y1 :: y2 :: y3 :: y4 :: '-' :: m1 :: m2 :: '-' :: d1 :: d2 :: 'T' :: rest =>
    if ([y1, y2, y3, y4] ++ [m1, m2] ++ [d1, d2]).all Char.isDigit then
      (readTimeTail rest).bind (fun t =>
        mkDateTime (readNat [y1, y2, y3, y4]) (readNat [m1, m2]) (readNat [d1, d2])
          t.1 t.2.1 t.2.2)
    else none
  | _ => (strptime1 cs).orElse fun _ => strptime3 cs

/-- `pd.to_datetime(cell, errors='coerce')` for the timestamp column of a
parsed delimited table. -/
def dtCoerce : Value → Value
  | .dt d => .dt d
  | .str s => match toDatetimeLoose s.data with
    | some d => .dt d
    | none => .null
  | _ => .null

def coerceDtCol (c : String) (f : Frame) : Frame :=
  { f with rows := f.rows.map (fun r =>
      match lookupR r c with
      | some v => setR r c (dtCoerce v)
      | none => r) }

/-- Post-processing of a successful delimited parse
(`data_processor.py:35-42`): coerce `timestamp`, or rename a `time`
column to `timestamp` (coerced) and drop the original. -/
def csvPost (f : Frame) : Frame :=
  if "timestamp" ∈ f.cols then coerceDtCol "timestamp" f
  else if "time" ∈ f.cols then
    { cols := f.cols.filter (fun c => c ≠ "time") ++ ["timestamp"],
      rows := f.rows.map (fun r =>
        match lookupR r "time" with
        | some v => eraseR (setR r "timestamp" (dtCoerce v)) "time"
        | none => r) }
  else f

/-! ### Detector 3: whitespace-columnar (`data_processor.py:131-182`) -/

/-- `^[a-zA-Z][a-zA-Z0-9_-]*$`, the bare-identifier header candidate
pattern (`data_processor.py:140`). -/
def identLike (p : List Char) : Bool :=
  match p with
  | c :: t => c.isAlpha && t.all isKeyChar
  | [] => false

/-- Join tokens with single spaces (`' '.join(parts[:2])`). -/
def joinSpace (ps : List (List Char)) : List Char :=
  match ps with
  | [] => []
  | [p] => p
  | p :: rest => p ++ ' ' :: joinSpace rest

/-- Key normalisation of the whitespace detector
(`key.lower().replace('-', '_').strip(':')`, `data_processor.py:164`). -/
def wsNormKey (k : List Char) : String :=
  String.mk (trimColons (k.map (fun c => if c = '-' then '_' else c.toLower)))

/-- Consecutive (key, value) pairing (`data_processor.py:162-166`): an odd
trailing token is dropped. -/
def pairUp : List (List Char) → List (String × Value)
  | a :: b :: t => (wsNormKey a, Value.str (String.mk b)) :: pairUp t
  | _ => []

/-- One line of the whitespace detector: try the first two tokens as a
timestamp (consumed on success), then pair the remaining tokens. -/
def wsLineRecord (l : List Char) : Option Record :=
  let parts := wsSplit (trimChars l)
  let seeded : Record × List (List Char) :=
    match toDatetimeLoose (joinSpace (parts.take 2)) with
    | some d => ([("timestamp", Value.dt d)], parts.drop 2)
    | none => ([], parts)
  let r := (pairUp seeded.2).foldl (fun d p => setR d p.1 p.2) seeded.1
  if r = [] then none else some r

/-- The whitespace-columnar detector: requires a bare-identifier token in
the first 10 lines, then parses every line; numeric coercion of `bytes`,
`src_port`, `dst_port`. -/
def wsDetect (lines : List (List Char)) : Option Frame :=
  let hasHeaders := (lines.take 10).any (fun l =>
    (wsSplit (trimChars l)).any identLike)
  if hasHeaders then
    let recs := lines.filterMap wsLineRecord
    if recs = [] then none
    else
      let f : Frame := ⟨colsOfRecords recs, recs⟩
      some (["bytes", "src_port", "dst_port"].foldl (fun g c => coerceNumCol c g) f)
  else none

/-! ### The parsing pipeline (`parse_mikrotik_logs`) -/

/-- `parse_mikrotik_logs` (`data_processor.py:9-186`): line filtering, the
three-detector cascade, `none` both for no valid lines and for total
detector failure (the source returns `None` at lines 28 and 186 alike). -/
def parse_mikrotik_logs (content : String) : Option Frame :=
  let cs := content.data
  let lines := contentLines cs
  if lines = [] then none
  else
    match readCSV cs with
    | .ok df => some (csvPost df)
    | .error _ =>
      match kvDetect lines with
      | some df => some df
      | none =>
        match wsDetect lines with
        | some df => some df
        | none => none

/-! ### Ordering of cell values

pandas compares group keys with Python `<`: codepoint-lexicographic for
strings, numeric for numbers.  A single total boolean order `vle` over
`Value` covers the homogeneous key columns the engine groups by (a mixed
key column would raise in pandas and occurs in no claim input). -/

/-- Codepoint-lexicographic string order (Python `str <=`). -/
def lexLe : List Char → List Char → Bool
  | [], _ => true
  | _ :: _, [] => false
  | a :: s, b :: t =>
    if a.toNat < b.toNat then true
    else if b.toNat < a.toNat then false
    else lexLe s t

/-- Monotone numeric encoding of a datetime for comparison. -/
def dtKey (d : DateTime) : Nat :=
  ((((d.year * 13 + d.month) * 32 + d.day) * 24 + d.hour) * 60 + d.minute) * 60 + d.second

/-- Total boolean order on cells (null < num < str < dt between kinds;
within a kind, the natural order). -/
def vle : Value → Value → Bool
  | .null, _ => true
  | _, .null => false
  | .num a, .num b => decide (a ≤ b)
  | .num _, _ => true
  | _, .num _ => false
  | .str a, .str b => lexLe a.data b.data
  | .str _, _ => true
  | _, .str _ => false
  | .dt a, .dt b => decide (dtKey a ≤ dtKey b)

theorem lexLe_total (a b : List Char) : lexLe a b = true ∨ lexLe b a = true := by
  induction a generalizing b with
  | nil => left; simp [lexLe]
  | cons x s ih =>
    cases b with
    | nil => right; simp [lexLe]
    | cons y t =>
      by_cases h1 : x.toNat < y.toNat
      · left; simp [lexLe, h1]
      · by_cases h2 : y.toNat < x.toNat
        · right; simp [lexLe, h2]
        · rcases ih t with h | h
          · left; simp [lexLe, h1, h2, h]
          · right; simp [lexLe, h1, h2, h]

theorem lexLe_trans {a b c : List Char}
    (h1 : lexLe a b = true) (h2 : lexLe b c = true) : lexLe a c = true := by
  induction a generalizing b c with
  | nil => simp [lexLe]
  | cons x s ih =>
    cases b with
    | nil => simp [lexLe] at h1
    | cons y t =>
      cases c with
      | nil => simp [lexLe] at h2
      | cons z u =>
        simp only [lexLe] at h1 h2 ⊢
        by_cases hxy : x.toNat < y.toNat
        · by_cases hyz : y.toNat < z.toNat
          · have hxz : x.toNat < z.toNat := by omega
            simp [hxz]
          · by_cases hzy : z.toNat < y.toNat
            · simp [hyz, hzy] at h2
            · have hxz : x.toNat < z.toNat := by omega
              simp [hxz]
        · by_cases hyx : y.toNat < x.toNat
          · simp [hxy, hyx] at h1
          · simp [hxy, hyx] at h1
            by_cases hyz : y.toNat < z.toNat
            · have hxz : x.toNat < z.toNat := by omega
              simp [hxz]
            · by_cases hzy : z.toNat < y.toNat
              · simp [hyz, hzy] at h2
              · simp [hyz, hzy] at h2
                have h3 : ¬ x.toNat < z.toNat := by omega
                have h4 : ¬ z.toNat < x.toNat := by omega
                simp [h3, h4]
                exact ih h1 h2

theorem vle_total (a b : Value) : vle a b = true ∨ vle b a = true := by
  cases a <;> cases b <;> simp [vle] <;> first
    | omega
    | (rename_i x y; exact lexLe_total x.data y.data)

theorem vle_trans {a b c : Value}
    (h1 : vle a b = true) (h2 : vle b c = true) : vle a c = true := by
  cases a <;> cases b <;> cases c <;>
    simp [vle] at h1 h2 ⊢ <;> first
    | omega
    | exact lexLe_trans h1 h2

/-! ### Sorting

`groupby` (with its default `sort=True`) presents group keys in ascending
order; `sort_values(ascending=False)` then orders a grouped series by its
metric descending.  The embedding realizes the metric sort as a stable
insertion sort: this coincides with numpy's introsort below its small
cutoff, which covers every concrete grouped series evaluated in this
development, but numpy's quicksort is not stable on larger runs of equal
metrics, so the equal-metric tie order of a larger grouped series is
implementation-defined.  Accordingly no universally quantified theorem
below relies on the tie order — only on the metric-descending order and
the length cap, which hold for any correct sort. -/

/-- Insert into an ascending list (used for the groupby key order). -/
def insAsc (x : Value) : List Value → List Value
  | [] => [x]
  | y :: ys => if vle y x then y :: insAsc x ys else x :: y :: ys

def sortAscV (l : List Value) : List Value := l.foldr insAsc []

/-- One grouped-series entry: key and metric. -/
abbrev Entry := Value × Int

/-- Descending insertion by metric (`sort_values(ascending=False)`);
an element is placed before the first entry whose metric is not strictly
greater, so equal-metric entries keep their relative input order (the
behaviour of the underlying sort on the small series evaluated here;
see the section comment for the stability caveat). -/
def insTop (x : Entry) : List Entry → List Entry
  | [] => [x]
  | y :: ys => if x.2 < y.2 then y :: insTop x ys else x :: y :: ys

def sortTop (l : List Entry) : List Entry := l.foldr insTop []

/-- First-encounter deduplication (distinct group keys). -/
def dedupV (l : List Value) : List Value :=
  l.foldl (fun acc v => if v ∈ acc then acc else acc ++ [v]) []

/-- A grouped series: ascending distinct keys, each with a metric computed
from the key (`groupby(col).agg(...)`). -/
def groupSeries (ks : List Value) (m : Value → Int) : List Entry :=
  (sortAscV (dedupV ks)).map (fun k => (k, m k))

/-! ### The aggregation engine (`process_traffic_data`) -/

/-- Grouping key of a row for a column: NaN keys are dropped by groupby. -/
def keyOfCol (c : String) (r : Record) : Option Value :=
  match lookupR r c with
  | some .null => none
  | none => none
  | some v => some v

/-- Byte contribution of a row to a sum (NaN and missing contribute 0,
matching `sum`'s `skipna`). -/
def bytesVal (r : Record) : Int :=
  match lookupR r "bytes" with
  | some (.num n) => n
  | _ => 0

/-- Whether a row has a non-null numeric bytes cell (for the mean). -/
def hasBytes (r : Record) : Bool :=
  match lookupR r "bytes" with
  | some (.num _) => true
  | _ => false

/-- `df.groupby(c).size()` as an ascending-key grouped series. -/
def groupCount (c : String) (rows : List Record) : List Entry :=
  groupSeries (rows.filterMap (keyOfCol c))
    (fun k => ((rows.filter (fun r => keyOfCol c r = some k)).length : Int))

/-- `df.groupby(c)['bytes'].sum()` as an ascending-key grouped series. -/
def groupBytesSum (c : String) (rows : List Record) : List Entry :=
  groupSeries (rows.filterMap (keyOfCol c))
    (fun k => ((rows.filter (fun r => keyOfCol c r = some k)).map bytesVal).sum)

/-- `....sort_values(ascending=False).head(10)`. -/
def top10 (l : List Entry) : List Entry := (sortTop l).take 10

def topCountOf (c : String) (f : Frame) : List Entry := top10 (groupCount c f.rows)

def topBytesOf (c : String) (f : Frame) : List Entry := top10 (groupBytesSum c f.rows)

/-- `value_counts()` (descending counts, no truncation). -/
def valueCountsOf (c : String) (f : Frame) : List Entry := sortTop (groupCount c f.rows)

/-- Distinct non-null values (`nunique`). -/
def nuniqueOf (c : String) (f : Frame) : Nat :=
  (dedupV (f.rows.filterMap (keyOfCol c))).length

/-- `df['hour'] = df['timestamp'].dt.hour` — every row is assigned
(`NaT` and non-datetime cells give NaN). -/
def hourCell (r : Record) : Value :=
  match lookupR r "timestamp" with
  | some (.dt d) => .num (d.hour : Int)
  | _ => .null

/-- `df['day_of_week'] = df['timestamp'].dt.day_name()`. -/
def dayCell (r : Record) : Value :=
  match lookupR r "timestamp" with
  | some (.dt d) => .str (dayName d)
  | _ => .null

/-- Column assignment `df[c] = <per-row value>`: replaces the column in
place or appends a new one at the end. -/
def setColFn (f : Frame) (c : String) (g : Record → Value) : Frame :=
  { cols := if c ∈ f.cols then f.cols else f.cols ++ [c],
    rows := f.rows.map (fun r => setR r c (g r)) }

/-- The frame after the engine's time-column assignments
(`data_processor.py:241,249`); the input frame itself is mutated by the
source, so `process_traffic_data` returns this frame alongside the
statistics. -/
def withTimeCols (f : Frame) : Frame :=
  if "timestamp" ∈ f.cols then
    setColFn (setColFn f "hour" hourCell) "day_of_week" dayCell
  else f

def trafficByHourOf (f : Frame) : List Entry :=
  groupBytesSum "hour" (withTimeCols f).rows

def connectionsByHourOf (f : Frame) : List Entry :=
  groupCount "hour" (withTimeCols f).rows

def trafficByDayOf (f : Frame) : List Entry :=
  groupBytesSum "day_of_week" (withTimeCols f).rows

def connectionsByDayOf (f : Frame) : List Entry :=
  groupCount "day_of_week" (withTimeCols f).rows

/-- Total of the bytes column (`df['bytes'].sum()`, NaN skipped). -/
def totalBytesVal (f : Frame) : Int := (f.rows.map bytesVal).sum

/-- Minimum timestamp cell by `vle` (`df['timestamp'].min()`, NaN skipped). -/
def tsMinOf (f : Frame) : Option Value :=
  match f.rows.filterMap (keyOfCol "timestamp") with
  | [] => none
  | v :: vs => some (vs.foldl (fun a b => if vle a b then a else b) v)

def tsMaxOf (f : Frame) : Option Value :=
  match f.rows.filterMap (keyOfCol "timestamp") with
  | [] => none
  | v :: vs => some (vs.foldl (fun a b => if vle a b then b else a) v)

/-- The Summary Statistics bundle.  Entries conditional on a column's
presence are `Option`-valued (`none` = key absent from the dict). -/
structure Stats where
  total_records : Nat
  total_bytes : Option Int
  total_mb : Option Rat
  total_gb : Option Rat
  avg_bytes_per_record : Option Rat
  unique_sources : Option Nat
  top_sources : Option (List Entry)
  top_sources_by_traffic : Option (List Entry)
  unique_destinations : Option Nat
  top_destinations : Option (List Entry)
  top_destinations_by_traffic : Option (List Entry)
  protocol_distribution : Option (List Entry)
  timespan_start : Option Value
  timespan_end : Option Value
  duration_hours : Option Rat
  traffic_by_hour : Option (List Entry)
  connections_by_hour : Option (List Entry)
  traffic_by_day : Option (List Entry)
  connections_by_day : Option (List Entry)
  top_destination_ports : Option (List Entry)
  top_ports_by_traffic : Option (List Entry)
deriving DecidableEq

/-- `process_traffic_data` (`data_processor.py:189-263`).  The source
mutates its argument when a timestamp column is present (the `hour` and
`day_of_week` assignments), so the embedding returns the statistics
together with the frame as it stands after the call. -/
def process_traffic_data (df : Frame) : Stats × Frame :=
  let hasB := "bytes" ∈ df.cols
  let hasT := "timestamp" ∈ df.cols
  let df2 := withTimeCols df
  let nbytes := (df.rows.filter hasBytes).length
  let stats : Stats :=
    { total_records := df.rows.length
      total_bytes := if hasB then some (totalBytesVal df) else none
      total_mb := if hasB then some ((totalBytesVal df : Rat) / (1024 ^ 2)) else none
      total_gb := if hasB then some ((totalBytesVal df : Rat) / (1024 ^ 3)) else none
      avg_bytes_per_record :=
        if hasB then
          (if nbytes = 0 then none
           else some ((totalBytesVal df : Rat) / (nbytes : Rat)))
        else none
      unique_sources := if "src_ip" ∈ df.cols then some (nuniqueOf "src_ip" df) else none
      top_sources := if "src_ip" ∈ df.cols then some (topCountOf "src_ip" df) else none
      top_sources_by_traffic :=
        if "src_ip" ∈ df.cols ∧ hasB then some (topBytesOf "src_ip" df) else none
      unique_destinations :=
        if "dst_ip" ∈ df.cols then some (nuniqueOf "dst_ip" df) else none
      top_destinations :=
        if "dst_ip" ∈ df.cols then some (topCountOf "dst_ip" df) else none
      top_destinations_by_traffic :=
        if "dst_ip" ∈ df.cols ∧ hasB then some (topBytesOf "dst_ip" df) else none
      protocol_distribution :=
        if "protocol" ∈ df.cols then some (valueCountsOf "protocol" df) else none
      timespan_start := if hasT then tsMinOf df else none
      timespan_end := if hasT then tsMaxOf df else none
      duration_hours :=
        if hasT then
          match tsMinOf df, tsMaxOf df with
          | some (.dt a), some (.dt b) =>
            some (((epochSecs b - epochSecs a : Int) : Rat) / 3600)
          | _, _ => none
        else none
      traffic_by_hour := if hasT ∧ hasB then some (trafficByHourOf df) else none
      connections_by_hour := if hasT then some (connectionsByHourOf df) else none
      traffic_by_day := if hasT ∧ hasB then some (trafficByDayOf df) else none
      connections_by_day := if hasT then some (connectionsByDayOf df) else none
      top_destination_ports :=
        if "dst_port" ∈ df.cols then some (topCountOf "dst_port" df) else none
      top_ports_by_traffic :=
        if "dst_port" ∈ df.cols ∧ hasB then some (topBytesOf "dst_port" df) else none }
  (stats, df2)

/-! ### Resampling core of `create_bandwidth_chart`
(`visualizer.py:18-28`) -/

/-- Consecutive integers `a, a+1, ..., a+n-1` (the hourly bucket labels a
`DatetimeIndex.resample('H')` materializes, empty buckets included). -/
def intRange (a : Int) (n : Nat) : List Int :=
  (List.range n).map (fun (i : Nat) => a + (i : Int))

/-- The hour bucket of a row, when its timestamp cell is a datetime. -/
def rowHour (r : Record) : Option Int :=
  match lookupR r "timestamp" with
  | some (.dt d) => some (epochHour d)
  | _ => none

/-- The hour indexes present in a frame (rows with `NaT`/non-datetime
timestamps are excluded from resampling buckets, as in pandas). -/
def hourCells (f : Frame) : List Int :=
  f.rows.filterMap rowHour

def minHourD (f : Frame) : Int :=
  match hourCells f with
  | [] => 0
  | h :: t => t.foldl min h

def maxHourD (f : Frame) : Int :=
  match hourCells f with
  | [] => 0
  | h :: t => t.foldl max h

/-- `df.set_index('timestamp')['bytes'].resample('H').sum()`: one bucket
per hour from the floored minimum to the floored maximum timestamp, each
carrying the byte sum of its rows (0 when empty, as `sum` of an empty
resample bucket is 0). -/
def resampleHourSum (f : Frame) : List (Int × Int) :=
  match hourCells f with
  | [] => []
  | _ :: _ =>
    (intRange (minHourD f) (maxHourD f - minHourD f + 1).toNat).map
      (fun k => (k, ((f.rows.filter (fun r => rowHour r = some k)).map bytesVal).sum))

/-- `create_bandwidth_chart`'s data series (`visualizer.py:18-28`): `none`
models the insufficient-data early return; on success the hourly byte sums
scaled to MB (the division by 1024² at line 28). -/
def bandwidthSeries (f : Frame) : Option (List (Int × Rat)) :=
  if "timestamp" ∈ f.cols ∧ "bytes" ∈ f.cols then
    some ((resampleHourSum f).map (fun p => (p.1, (p.2 : Rat) / (1024 ^ 2))))
  else none

/-! ### Spec-side definitions (for refinement comparisons only)

These two definitions follow the specification's words, not the source;
they exist so that claims about tie order and day order can be stated as
an equality between the source behaviour and the specified behaviour. -/

/-- Modelled from the spec: a top-10 grouped series whose equal-metric
ties keep the first-encounter order of their keys in the input
("ties broken by original encounter order (stable sort)", spec section 4.4). -/
def specTopCountEncounter (c : String) (f : Frame) : List Entry :=
  top10 ((dedupV (f.rows.filterMap (keyOfCol c))).map
    (fun k => (k, ((f.rows.filter (fun r => keyOfCol c r = some k)).length : Int))))

/-- Modelled from the spec: the day-of-week keys "Monday–Sunday, Monday
first" (spec section 4.4), restricted to the days present in the frame. -/
def specCalendarDayKeys (f : Frame) : List Value :=
  (dayNames.map Value.str).filter
    (fun v => v ∈ (withTimeCols f).rows.filterMap (keyOfCol "day_of_week"))

/-! ### Order properties of the grouped-series machinery -/

/-- `vle` as a relation. -/
def vleP (a b : Value) : Prop := vle a b = true

/-- Keys of two grouped-series entries in `vle` order. -/
def keyVle (a b : Entry) : Prop := vle a.1 b.1 = true

/-- The order a top-N aggregate actually satisfies: strictly greater
metric first, and equal-metric ties in ascending key order. -/
def RTop (a b : Entry) : Prop := b.2 < a.2 ∨ (a.2 = b.2 ∧ vle a.1 b.1 = true)

theorem RTop_ge {a b : Entry} (h : RTop a b) : b.2 ≤ a.2 := by
  rcases h with h | ⟨h, _⟩ <;> omega

theorem mem_insAsc {x z : Value} {l : List Value} :
    z ∈ insAsc x l ↔ z = x ∨ z ∈ l := by
  induction l with
  | nil => simp [insAsc]
  | cons y ys ih =>
    by_cases h : vle y x <;> simp [insAsc, h, ih] <;> tauto

theorem pairwise_insAsc {x : Value} {l : List Value}
    (hl : l.Pairwise vleP) : (insAsc x l).Pairwise vleP := by
  induction l with
  | nil => simp [insAsc, List.Pairwise]
  | cons y ys ih =>
    rw [List.pairwise_cons] at hl
    obtain ⟨hy, hys⟩ := hl
    by_cases h : vle y x
    · rw [insAsc, if_pos h, List.pairwise_cons]
      refine ⟨fun z hz => ?_, ih hys⟩
      rcases mem_insAsc.mp hz with rfl | hz
      · exact h
      · exact hy z hz
    · rw [insAsc, if_neg h, List.pairwise_cons]
      refine ⟨fun z hz => ?_, List.pairwise_cons.mpr ⟨hy, hys⟩⟩
      rcases List.mem_cons.mp hz with rfl | hz
      · rcases vle_total x z with hx | hx
        · exact hx
        · exact absurd hx h
      · rcases vle_total x y with hx | hx
        · exact vle_trans hx (hy z hz)
        · exact absurd hx h

theorem pairwise_sortAscV (l : List Value) : (sortAscV l).Pairwise vleP := by
  induction l with
  | nil => simp [sortAscV, List.Pairwise]
  | cons x xs ih => exact pairwise_insAsc ih

theorem mem_insTop {x z : Entry} {l : List Entry} :
    z ∈ insTop x l ↔ z = x ∨ z ∈ l := by
  induction l with
  | nil => simp [insTop]
  | cons y ys ih =>
    by_cases h : x.2 < y.2 <;> simp [insTop, h, ih] <;> tauto

theorem pairwise_insTop {x : Entry} {l : List Entry}
    (hl : l.Pairwise RTop) (hx : ∀ y ∈ l, vle x.1 y.1 = true) :
    (insTop x l).Pairwise RTop := by
  induction l with
  | nil => simp [insTop, List.Pairwise]
  | cons y ys ih =>
    rw [List.pairwise_cons] at hl
    obtain ⟨hy, hys⟩ := hl
    by_cases h : x.2 < y.2
    · rw [insTop, if_pos h, List.pairwise_cons]
      refine ⟨fun z hz => ?_, ih hys (fun z hz => hx z (List.mem_cons_of_mem _ hz))⟩
      rcases mem_insTop.mp hz with rfl | hz
      · exact Or.inl h
      · exact hy z hz
    · rw [insTop, if_neg h, List.pairwise_cons]
      refine ⟨fun z hz => ?_, List.pairwise_cons.mpr ⟨hy, hys⟩⟩
      rcases List.mem_cons.mp hz with rfl | hz
      · rcases lt_or_eq_of_le (not_lt.mp h) with hlt | heq
        · exact Or.inl hlt
        · exact Or.inr ⟨heq.symm, hx z (List.mem_cons_self _ _)⟩
      · have hzy : z.2 ≤ y.2 := RTop_ge (hy z hz)
        have hyx : y.2 ≤ x.2 := not_lt.mp h
        rcases lt_or_eq_of_le (le_trans hzy hyx) with hlt | heq
        · exact Or.inl hlt
        · exact Or.inr ⟨heq.symm, hx z (List.mem_cons_of_mem _ hz)⟩

theorem mem_sortTop {z : Entry} {l : List Entry} :
    z ∈ sortTop l ↔ z ∈ l := by
  induction l with
  | nil => simp [sortTop]
  | cons x xs ih =>
    show z ∈ insTop x (sortTop xs) ↔ _
    rw [mem_insTop]
    simp [ih]

theorem pairwise_sortTop {l : List Entry}
    (h : l.Pairwise keyVle) : (sortTop l).Pairwise RTop := by
  induction l with
  | nil => simp [sortTop, List.Pairwise]
  | cons x xs ih =>
    rw [List.pairwise_cons] at h
    obtain ⟨hx, hxs⟩ := h
    exact pairwise_insTop (ih hxs) (fun y hy => hx y (mem_sortTop.mp hy))

theorem groupSeries_pairwise_keyVle (ks : List Value) (m : Value → Int) :
    (groupSeries ks m).Pairwise keyVle := by
  unfold groupSeries
  exact (pairwise_sortAscV (dedupV ks)).map _ (fun a b h => h)

/-- What every top-10 aggregate of the engine guarantees: at most 10
entries, sorted by the metric descending.  (No tie-order component: the
metric sort is not stable in general, see the section comment.) -/
def topGood (l : List Entry) : Prop :=
  l.length ≤ 10 ∧ l.Pairwise (fun a b => b.2 ≤ a.2)

/-- The embedded (stable) sort additionally orders equal-metric ties by
ascending key; this strong form is internal — claims only use the
`topGood` consequence below. -/
theorem top10_groupSeries_sorted (ks : List Value) (m : Value → Int) :
    (top10 (groupSeries ks m)).length ≤ 10
  ∧ (top10 (groupSeries ks m)).Pairwise RTop := by
  constructor
  · simp [top10, List.length_take]
  · exact List.Pairwise.sublist (List.take_sublist 10 _)
      (pairwise_sortTop (groupSeries_pairwise_keyVle ks m))

theorem top10_groupSeries_good (ks : List Value) (m : Value → Int) :
    topGood (top10 (groupSeries ks m)) :=
  ⟨(top10_groupSeries_sorted ks m).1,
   (top10_groupSeries_sorted ks m).2.imp (fun h => RTop_ge h)⟩

theorem groupSeries_keys_pairwise (ks : List Value) (m : Value → Int) :
    ((groupSeries ks m).map Prod.fst).Pairwise vleP := by
  unfold groupSeries
  rw [List.map_map]
  have : (Prod.fst ∘ fun k => ((k, m k) : Entry)) = id := rfl
  rw [this, List.map_id]
  exact pairwise_sortAscV (dedupV ks)

/-! ### Bucket coverage and sum preservation of hourly resampling -/

theorem mem_intRange {a : Int} {n : Nat} {k : Int} :
    k ∈ intRange a n ↔ a ≤ k ∧ k < a + n := by
  unfold intRange
  rw [List.mem_map]
  constructor
  · rintro ⟨i, hi, rfl⟩
    rw [List.mem_range] at hi
    omega
  · rintro ⟨h1, h2⟩
    exact ⟨(k - a).toNat, by rw [List.mem_range]; omega, by omega⟩

theorem nodup_intRange (a : Int) (n : Nat) : (intRange a n).Nodup := by
  unfold intRange
  apply List.Nodup.map
  · intro i j h
    simp only at h
    omega
  · exact List.nodup_range n

theorem sum_ite_mem (L : List Int) (a : Int) (x : Int) (g : Int → Int)
    (hnd : L.Nodup) (ha : a ∈ L) :
    (L.map (fun t => if a = t then x + g t else g t)).sum = x + (L.map g).sum := by
  induction L with
  | nil => simp at ha
  | cons b L' ih =>
    rw [List.nodup_cons] at hnd
    rcases List.mem_cons.mp ha with rfl | ha'
    · have : ∀ t ∈ L', ¬ a = t := fun t ht he => hnd.1 (he ▸ ht)
      rw [List.map_cons, List.map_cons, if_pos rfl]
      have hmap : L'.map (fun t => if a = t then x + g t else g t) = L'.map g := by
        apply List.map_congr_left
        intro t ht
        rw [if_neg (this t ht)]
      rw [hmap, List.sum_cons, List.sum_cons]
      omega
    · have hab : ¬ a = b := fun he => hnd.1 (he ▸ ha')
      rw [List.map_cons, List.map_cons, if_neg hab, List.sum_cons, List.sum_cons,
        ih hnd.2 ha']
      omega

theorem bucket_sum (rows : List Record) (L : List Int)
    (key : Record → Option Int) (bv : Record → Int)
    (hnd : L.Nodup) (hmem : ∀ r ∈ rows, ∃ k, key r = some k ∧ k ∈ L) :
    (L.map (fun t => ((rows.filter (fun r => key r = some t)).map bv).sum)).sum
      = (rows.map bv).sum := by
  induction rows with
  | nil => simp
  | cons r rs ih =>
    obtain ⟨k, hk, hkL⟩ := hmem r (List.mem_cons_self _ _)
    have hstep : ∀ t : Int,
        ((((r :: rs).filter (fun r' => key r' = some t)).map bv).sum)
          = if k = t then bv r + (((rs.filter (fun r' => key r' = some t)).map bv).sum)
            else ((rs.filter (fun r' => key r' = some t)).map bv).sum := by
      intro t
      by_cases h : k = t
      · subst h
        rw [List.filter_cons, if_pos (by simp [hk]), List.map_cons, List.sum_cons,
          if_pos rfl]
      · rw [List.filter_cons, if_neg (by simp [hk, h]), if_neg h]
    have hmap : L.map (fun t => (((r :: rs).filter (fun r' => key r' = some t)).map bv).sum)
        = L.map (fun t => if k = t then
            bv r + (((rs.filter (fun r' => key r' = some t)).map bv).sum)
          else ((rs.filter (fun r' => key r' = some t)).map bv).sum) := by
      exact List.map_congr_left (fun t _ => hstep t)
    rw [hmap]
    have := sum_ite_mem L k (bv r)
      (fun t => ((rs.filter (fun r' => key r' = some t)).map bv).sum) hnd hkL
    rw [this, ih (fun r' hr' => hmem r' (List.mem_cons_of_mem _ hr'))]
    simp

theorem foldl_min_le_init : ∀ (l : List Int) (a : Int), l.foldl min a ≤ a := by
  intro l
  induction l with
  | nil => intro a; simp
  | cons b t ih =>
    intro a
    calc (b :: t).foldl min a = t.foldl min (min a b) := rfl
    _ ≤ min a b := ih (min a b)
    _ ≤ a := min_le_left _ _

theorem foldl_min_le_mem : ∀ (l : List Int) (a x : Int), x ∈ l → l.foldl min a ≤ x := by
  intro l
  induction l with
  | nil => intro a x hx; simp at hx
  | cons b t ih =>
    intro a x hx
    rcases List.mem_cons.mp hx with rfl | hx'
    · calc (x :: t).foldl min a = t.foldl min (min a x) := rfl
      _ ≤ min a x := foldl_min_le_init t _
      _ ≤ x := min_le_right _ _
    · exact ih (min a b) x hx'

theorem le_foldl_max_init : ∀ (l : List Int) (a : Int), a ≤ l.foldl max a := by
  intro l
  induction l with
  | nil => intro a; simp
  | cons b t ih =>
    intro a
    calc a ≤ max a b := le_max_left _ _
    _ ≤ t.foldl max (max a b) := ih (max a b)
    _ = (b :: t).foldl max a := rfl

theorem le_foldl_max_mem : ∀ (l : List Int) (a x : Int), x ∈ l → x ≤ l.foldl max a := by
  intro l
  induction l with
  | nil => intro a x hx; simp at hx
  | cons b t ih =>
    intro a x hx
    rcases List.mem_cons.mp hx with rfl | hx'
    · calc x ≤ max a x := le_max_right _ _
      _ ≤ t.foldl max (max a x) := le_foldl_max_init t _
      _ = (x :: t).foldl max a := rfl
    · exact ih (max a b) x hx'

/-- Every hour present in the frame lies between the extremes. -/
theorem hour_between {f : Frame} {r : Record} {k : Int}
    (hr : r ∈ f.rows) (hk : rowHour r = some k) :
    minHourD f ≤ k ∧ k ≤ maxHourD f := by
  have hmem : k ∈ hourCells f := by
    unfold hourCells
    exact List.mem_filterMap.mpr ⟨r, hr, hk⟩
  unfold minHourD maxHourD
  cases hc : hourCells f with
  | nil => rw [hc] at hmem; simp at hmem
  | cons h t =>
    rw [hc] at hmem
    rcases List.mem_cons.mp hmem with rfl | hm
    · exact ⟨foldl_min_le_init t k, le_foldl_max_init t k⟩
    · exact ⟨foldl_min_le_mem t h k hm, le_foldl_max_mem t h k hm⟩

theorem minHourD_le_maxHourD {f : Frame} (h : hourCells f ≠ []) :
    minHourD f ≤ maxHourD f := by
  unfold minHourD maxHourD
  cases hc : hourCells f with
  | nil => exact absurd hc h
  | cons a t =>
    calc t.foldl min a ≤ a := foldl_min_le_init t a
    _ ≤ t.foldl max a := le_foldl_max_init t a

/-- Claim C8, helper: with every row carrying a datetime timestamp, the
hour cells are nonempty whenever the rows are. -/
theorem hourCells_ne_nil {f : Frame} (hrows : f.rows ≠ [])
    (hall : ∀ r ∈ f.rows, (rowHour r).isSome = true) : hourCells f ≠ [] := by
  cases hr : f.rows with
  | nil => exact absurd hr hrows
  | cons r rs =>
    have h1 := hall r (by rw [hr]; exact List.mem_cons_self _ _)
    obtain ⟨k, hk⟩ := Option.isSome_iff_exists.mp h1
    unfold hourCells
    rw [hr, List.filterMap_cons, hk]
    simp

/-- Claim C8: for a record set whose rows all carry datetime timestamps,
the hourly resampling buckets cover exactly the hours between the floored
minimum and maximum timestamps (empty buckets included, none omitted),
every record falls inside that span, and the bucket byte totals sum to
the unfiltered bytes total used for `total_bytes`. -/
theorem hourly_buckets_cover_and_sum (f : Frame)
    (hrows : f.rows ≠ [])
    (hall : ∀ r ∈ f.rows, (rowHour r).isSome = true) :
    (∀ k : Int, k ∈ (resampleHourSum f).map Prod.fst ↔
        minHourD f ≤ k ∧ k ≤ maxHourD f)
  ∧ (∀ r ∈ f.rows, ∀ k, rowHour r = some k → minHourD f ≤ k ∧ k ≤ maxHourD f)
  ∧ ((resampleHourSum f).map Prod.snd).sum = totalBytesVal f := by
  have hne : hourCells f ≠ [] := hourCells_ne_nil hrows hall
  have hlohi : minHourD f ≤ maxHourD f := minHourD_le_maxHourD hne
  have hres : resampleHourSum f =
      (intRange (minHourD f) (maxHourD f - minHourD f + 1).toNat).map
        (fun k => (k, ((f.rows.filter (fun r => rowHour r = some k)).map bytesVal).sum)) := by
    unfold resampleHourSum
    cases hc : hourCells f with
    | nil => exact absurd hc hne
    | cons a t => rfl
  refine ⟨?_, ?_, ?_⟩
  · intro k
    rw [hres, List.map_map]
    have hid : (Prod.fst ∘ fun k : Int =>
        ((k, ((f.rows.filter (fun r => rowHour r = some k)).map bytesVal).sum) : Int × Int))
        = id := rfl
    rw [hid, List.map_id, mem_intRange]
    omega
  · intro r hr k hk
    exact hour_between hr hk
  · rw [hres, List.map_map]
    have hsnd : (Prod.snd ∘ fun k : Int =>
        ((k, ((f.rows.filter (fun r => rowHour r = some k)).map bytesVal).sum) : Int × Int))
        = fun k => ((f.rows.filter (fun r => rowHour r = some k)).map bytesVal).sum := rfl
    rw [hsnd]
    unfold totalBytesVal
    apply bucket_sum
    · exact nodup_intRange _ _
    · intro r hr
      obtain ⟨k, hk⟩ := Option.isSome_iff_exists.mp (hall r hr)
      refine ⟨k, hk, ?_⟩
      rw [mem_intRange]
      have := hour_between hr hk
      omega

def c8WitnessFrame : Frame :=
  ⟨["timestamp", "bytes"],
   [[("timestamp", Value.dt ⟨2023, 10, 5, 8, 0, 0⟩), ("bytes", Value.num 100)],
    [("timestamp", Value.dt ⟨2023, 10, 5, 10, 30, 0⟩), ("bytes", Value.num 50)]]⟩

/-- Witness for C8 at a concrete two-record frame whose middle hourly
bucket is empty: the theorem applies and the bucket sums equal the bytes
total. -/
theorem hourly_buckets_cover_and_sum_witness :
    (∀ k : Int, k ∈ (resampleHourSum c8WitnessFrame).map Prod.fst ↔
        minHourD c8WitnessFrame ≤ k ∧ k ≤ maxHourD c8WitnessFrame)
  ∧ ((resampleHourSum c8WitnessFrame).map Prod.snd).sum = totalBytesVal c8WitnessFrame :=
  ⟨(hourly_buckets_cover_and_sum c8WitnessFrame (by decide) (by decide)).1,
   (hourly_buckets_cover_and_sum c8WitnessFrame (by decide) (by decide)).2.2⟩

/-! ### Frame effect of the aggregation engine (claim C5) -/

/-- Claim C5 (amended): the aggregation engine leaves the record set
unchanged when it has no timestamp column; when a timestamp column is
present it writes the `hour` and `day_of_week` columns into the input
record set, and no other column's cells are modified. -/
theorem aggregation_frame_effect_amended (df : Frame) (c : String)
    (h1 : c ≠ "hour") (h2 : c ≠ "day_of_week") :
    ("timestamp" ∉ df.cols → (process_traffic_data df).2 = df)
  ∧ ((process_traffic_data df).2.rows.map (fun r => lookupR r c)
      = df.rows.map (fun r => lookupR r c)) := by
  have hsnd : (process_traffic_data df).2 = withTimeCols df := rfl
  constructor
  · intro hts
    rw [hsnd]
    unfold withTimeCols
    rw [if_neg hts]
  · rw [hsnd]
    unfold withTimeCols
    by_cases hts : "timestamp" ∈ df.cols
    · rw [if_pos hts]
      show ((df.rows.map fun r => setR r "hour" (hourCell r)).map
          fun r => setR r "day_of_week" (dayCell r)).map (fun r => lookupR r c) = _
      rw [List.map_map, List.map_map]
      apply List.map_congr_left
      intro r _
      show lookupR (setR (setR r "hour" (hourCell r)) "day_of_week"
        (dayCell (setR r "hour" (hourCell r)))) c = lookupR r c
      rw [lookupR_setR_ne _ _ _ _ (fun he => h2 he.symm),
        lookupR_setR_ne _ _ _ _ (fun he => h1 he.symm)]
    · rw [if_neg hts]

def c5MutFrame : Frame :=
  ⟨["timestamp"], [[("timestamp", Value.dt ⟨2023, 10, 5, 8, 0, 0⟩)]]⟩

def c5PureFrame : Frame :=
  ⟨["src_ip"], [[("src_ip", Value.str "10.0.0.1")]]⟩

/-- Counterexample to C5 as stated: on a record set with a timestamp
column, computing the statistics does not leave the record set unchanged
(the engine adds `hour` and `day_of_week` columns to it). -/
theorem aggregation_mutates_input :
    (process_traffic_data c5MutFrame).2 ≠ c5MutFrame := by decide

/-- Witness for the amended C5 at concrete frames: purity without a
timestamp column, and preservation of the `src_ip` cells with one. -/
theorem aggregation_frame_effect_amended_witness :
    ((process_traffic_data c5PureFrame).2 = c5PureFrame)
  ∧ ((process_traffic_data c5MutFrame).2.rows.map (fun r => lookupR r "timestamp")
      = c5MutFrame.rows.map (fun r => lookupR r "timestamp")) :=
  ⟨(aggregation_frame_effect_amended c5PureFrame "src_ip" (by decide) (by decide)).1
      (by decide),
   (aggregation_frame_effect_amended c5MutFrame "timestamp" (by decide) (by decide)).2⟩

/-! ### Synonym-merge properties (claim C3) -/

theorem mergeStep_cols_rev {f : Frame} {p : String × String} {x : String}
    (hx : x ≠ p.2) : x ∈ (mergeStep f p).cols → x ∈ f.cols := by
  unfold mergeStep
  by_cases hc : p.1 ∈ f.cols ∧ p.2 ∉ f.cols
  · rw [if_pos hc]
    intro h
    rcases List.mem_append.mp h with h' | h'
    · exact List.mem_of_mem_filter h'
    · exact absurd (List.mem_singleton.mp h') hx
  · rw [if_neg hc]
    exact id

theorem mergeStep_cols_mono {f : Frame} {p : String × String} {x : String}
    (hx : x ≠ p.1) : x ∈ f.cols → x ∈ (mergeStep f p).cols := by
  unfold mergeStep
  by_cases hc : p.1 ∈ f.cols ∧ p.2 ∉ f.cols
  · rw [if_pos hc]
    intro h
    exact List.mem_append.mpr (Or.inl (List.mem_filter.mpr ⟨h, by simpa using hx⟩))
  · rw [if_neg hc]
    exact id

theorem mergeStep_own {f : Frame} {p : String × String} (hne : p.1 ≠ p.2) :
    p.1 ∈ (mergeStep f p).cols → p.2 ∈ (mergeStep f p).cols := by
  unfold mergeStep
  by_cases hc : p.1 ∈ f.cols ∧ p.2 ∉ f.cols
  · rw [if_pos hc]
    intro h
    exfalso
    rcases List.mem_append.mp h with h' | h'
    · have := (List.mem_filter.mp h').2
      simp at this
    · exact hne (List.mem_singleton.mp h')
  · rw [if_neg hc]
    intro h
    push_neg at hc
    exact hc h

/-- After the standardisation loop, a synonym column can only survive if
its canonical counterpart is also present (it is renamed exactly when the
canonical name was absent). -/
theorem mergeSynonyms_prop (f : Frame) :
    ("source_ip" ∈ (mergeSynonyms f).cols → "src_ip" ∈ (mergeSynonyms f).cols)
  ∧ ("destination_ip" ∈ (mergeSynonyms f).cols → "dst_ip" ∈ (mergeSynonyms f).cols)
  ∧ ("source_port" ∈ (mergeSynonyms f).cols → "src_port" ∈ (mergeSynonyms f).cols)
  ∧ ("destination_port" ∈ (mergeSynonyms f).cols → "dst_port" ∈ (mergeSynonyms f).cols) := by
  have hms : mergeSynonyms f =
      mergeStep (mergeStep (mergeStep (mergeStep f ("source_ip", "src_ip"))
        ("destination_ip", "dst_ip")) ("source_port", "src_port"))
        ("destination_port", "dst_port") := rfl
  rw [hms]
  refine ⟨?_, ?_, ?_, ?_⟩
  · intro h
    have h3 := mergeStep_cols_rev (by decide) h
    have h2 := mergeStep_cols_rev (by decide) h3
    have h1 := mergeStep_cols_rev (by decide) h2
    have hn1 := mergeStep_own (by decide) h1
    exact mergeStep_cols_mono (by decide)
      (mergeStep_cols_mono (by decide) (mergeStep_cols_mono (by decide) hn1))
  · intro h
    have h3 := mergeStep_cols_rev (by decide) h
    have h2 := mergeStep_cols_rev (by decide) h3
    have hn2 := mergeStep_own (by decide) h2
    exact mergeStep_cols_mono (by decide) (mergeStep_cols_mono (by decide) hn2)
  · intro h
    have h3 := mergeStep_cols_rev (by decide) h
    have hn3 := mergeStep_own (by decide) h3
    exact mergeStep_cols_mono (by decide) hn3
  · intro h
    exact mergeStep_own (by decide) h

/-- Claim C3 (amended): the synonym merge is applied by the Key-Value
detector, and it renames a synonym column exactly when the canonical name
is absent — so in that detector's output a synonym column name appears
only together with its canonical counterpart.  (The Delimited-Table and
Whitespace-Columnar detectors apply no merge at all.) -/
theorem kv_synonym_merge_amended (lines : List (List Char)) (df : Frame)
    (h : kvDetect lines = some df) :
    ("source_ip" ∈ df.cols → "src_ip" ∈ df.cols)
  ∧ ("destination_ip" ∈ df.cols → "dst_ip" ∈ df.cols)
  ∧ ("source_port" ∈ df.cols → "src_port" ∈ df.cols)
  ∧ ("destination_port" ∈ df.cols → "dst_port" ∈ df.cols) := by
  unfold kvDetect at h
  by_cases hrec : kvRecords lines = []
  · rw [if_pos hrec] at h
    exact absurd h (by simp)
  · rw [if_neg hrec] at h
    simp only [Option.some.injEq] at h
    rw [← h]
    exact mergeSynonyms_prop _

def c3Content : String := "source_ip,src_ip\n1.1.1.1,2.2.2.2"

def c3Frame : Frame :=
  ⟨["source_ip", "src_ip"],
   [[("source_ip", Value.str "1.1.1.1"), ("src_ip", Value.str "2.2.2.2")]]⟩

/-- Counterexample to C3 as stated: a delimited-table input whose parse
result contains both `source_ip` and its canonical counterpart `src_ip`
simultaneously — the synonym merge is not applied on this detector path. -/
theorem csv_keeps_synonym_columns :
    parse_mikrotik_logs c3Content = some c3Frame
  ∧ "source_ip" ∈ c3Frame.cols ∧ "src_ip" ∈ c3Frame.cols :=
  ⟨rfl, by decide, by decide⟩

def c3KvLines : List (List Char) := ["source_ip=1.1.1.1 src_ip=2.2.2.2".data]

def c3KvFrame : Frame :=
  ⟨["source_ip", "src_ip"],
   [[("source_ip", Value.str "1.1.1.1"), ("src_ip", Value.str "2.2.2.2")]]⟩

/-- Witness for the amended C3: a key-value line carrying both a synonym
and its canonical name keeps both (the merge step is skipped), and the
amended implications hold on it. -/
theorem kv_synonym_merge_amended_witness :
    ("source_ip" ∈ c3KvFrame.cols → "src_ip" ∈ c3KvFrame.cols)
  ∧ ("destination_ip" ∈ c3KvFrame.cols → "dst_ip" ∈ c3KvFrame.cols)
  ∧ ("source_port" ∈ c3KvFrame.cols → "src_port" ∈ c3KvFrame.cols)
  ∧ ("destination_port" ∈ c3KvFrame.cols → "dst_port" ∈ c3KvFrame.cols) :=
  kv_synonym_merge_amended c3KvLines c3KvFrame (by rfl)

/-! ### Detector dispatch (claims C1, C2, C4) -/

theorem coerceNumCol_rows_length (c : String) (f : Frame) :
    (coerceNumCol c f).rows.length = f.rows.length := by
  unfold coerceNumCol
  by_cases h : c ∈ f.cols
  · rw [if_pos h]
    exact List.length_map _ _
  · rw [if_neg h]

theorem foldl_coerce_rows_length (cs : List String) (f : Frame) :
    (cs.foldl (fun g c => coerceNumCol c g) f).rows.length = f.rows.length := by
  induction cs generalizing f with
  | nil => rfl
  | cons c t ih => rw [List.foldl_cons, ih, coerceNumCol_rows_length]

theorem mergeStep_rows_length (f : Frame) (p : String × String) :
    (mergeStep f p).rows.length = f.rows.length := by
  unfold mergeStep
  by_cases h : p.1 ∈ f.cols ∧ p.2 ∉ f.cols
  · rw [if_pos h]
    exact List.length_map _ _
  · rw [if_neg h]

theorem mergeSynonyms_rows_length (f : Frame) :
    (mergeSynonyms f).rows.length = f.rows.length := by
  show (mergeStep (mergeStep (mergeStep (mergeStep f _) _) _) _).rows.length = _
  rw [mergeStep_rows_length, mergeStep_rows_length, mergeStep_rows_length,
    mergeStep_rows_length]

/-- The Key-Value detector returns a frame only when it produced at least
one record. -/
theorem kvDetect_some_rows_ne (lines : List (List Char)) (df : Frame)
    (h : kvDetect lines = some df) : df.rows ≠ [] := by
  unfold kvDetect at h
  by_cases hrec : kvRecords lines = []
  · rw [if_pos hrec] at h
    exact absurd h (by simp)
  · rw [if_neg hrec] at h
    simp only [Option.some.injEq] at h
    intro hnil
    apply hrec
    have hlen : df.rows.length = (kvRecords lines).length := by
      rw [← h, mergeSynonyms_rows_length, foldl_coerce_rows_length,
        coerceNumCol_rows_length]
    rw [hnil] at hlen
    exact List.length_eq_zero.mp hlen.symm

/-- The Whitespace-Columnar detector returns a frame only when it
produced at least one record. -/
theorem wsDetect_some_rows_ne (lines : List (List Char)) (df : Frame)
    (h : wsDetect lines = some df) : df.rows ≠ [] := by
  unfold wsDetect at h
  by_cases hh : (lines.take 10).any (fun l => (wsSplit (trimChars l)).any identLike)
  · rw [if_pos hh] at h
    by_cases hrec : lines.filterMap wsLineRecord = []
    · rw [if_pos hrec] at h
      exact absurd h (by simp)
    · rw [if_neg hrec] at h
      simp only [Option.some.injEq] at h
      intro hnil
      apply hrec
      have hlen : df.rows.length = (lines.filterMap wsLineRecord).length := by
        rw [← h, foldl_coerce_rows_length]
      rw [hnil] at hlen
      exact List.length_eq_zero.mp hlen.symm
  · rw [if_neg hh] at h
    exact absurd h (by simp)

/-- Claim C1 (amended): the Delimited-Table detector wins whenever its
parse raises no error — even when it yields zero records; a malformed
delimited parse fails atomically and falls through to the Key-Value
detector; between the Key-Value and Whitespace-Columnar detectors the
first to yield at least one record wins, and each of those two returns a
result only when it has at least one record. -/
theorem detector_dispatch_amended (content : String) :
    (∀ df, contentLines content.data ≠ [] → readCSV content.data = .ok df →
        parse_mikrotik_logs content = some (csvPost df))
  ∧ (∀ df, contentLines content.data ≠ [] → readCSV content.data = .error () →
        kvDetect (contentLines content.data) = some df →
        parse_mikrotik_logs content = some df ∧ df.rows ≠ [])
  ∧ (contentLines content.data ≠ [] → readCSV content.data = .error () →
        kvDetect (contentLines content.data) = none →
        parse_mikrotik_logs content = wsDetect (contentLines content.data))
  ∧ (∀ df, wsDetect (contentLines content.data) = some df → df.rows ≠ []) := by
  refine ⟨?_, ?_, ?_, ?_⟩
  · intro df hne hcsv
    unfold parse_mikrotik_logs
    rw [if_neg hne, hcsv]
  · intro df hne hcsv hkv
    refine ⟨?_, kvDetect_some_rows_ne _ _ hkv⟩
    unfold parse_mikrotik_logs
    rw [if_neg hne, hcsv, hkv]
  · intro hne hcsv hkv
    unfold parse_mikrotik_logs
    rw [if_neg hne, hcsv, hkv]
    cases hws : wsDetect (contentLines content.data) <;> rfl
  · exact wsDetect_some_rows_ne _

def c1Content : String := "hello world"

/-- Counterexample to C1 as stated: on this input the returned result is
the Delimited-Table detector's zero-record frame (its parse "succeeds"
with the single line as a lone header), although the Whitespace-Columnar
detector would yield one record — so the first detector yielding at least
one record is not the one returned. -/
theorem csv_wins_with_zero_records :
    parse_mikrotik_logs c1Content = some ⟨["hello world"], []⟩
  ∧ wsDetect (contentLines c1Content.data)
      = some ⟨["hello"], [[("hello", Value.str "world")]]⟩ :=
  ⟨rfl, rfl⟩

/-- Witness for the amended C1: a well-formed delimited input is returned
by the first detector; an input whose later row exceeds the width set by
the first data row makes the delimited parse raise and falls through to
the Key-Value detector, whose non-empty result is returned. -/
theorem detector_dispatch_amended_witness :
    (parse_mikrotik_logs "a,b\n1,2"
      = some (csvPost ⟨["a", "b"], [[("a", Value.num 1), ("b", Value.num 2)]]⟩))
  ∧ (parse_mikrotik_logs "x=1\ny,y\nz,z,z"
      = some ⟨["x"], [[("x", Value.str "1")]]⟩
    ∧ Frame.rows ⟨["x"], [[("x", Value.str "1")]]⟩ ≠ []) :=
  ⟨(detector_dispatch_amended "a,b\n1,2").1 _ (by decide) (by rfl),
   (detector_dispatch_amended "x=1\ny,y\nz,z,z").2.1 _ (by decide) (by rfl) (by rfl)⟩

def c2Garbage : String := "a,b\nc,d,e\nf,g,h,i"

/-- Counterexample to C2 as stated: the no-valid-lines outcome and the
all-detectors-defeated outcome produce the very same value at the
caller's interface (`None` both times) — they are not distinguishable
there. -/
theorem nodata_parsefailure_indistinguishable :
    parse_mikrotik_logs "" = parse_mikrotik_logs c2Garbage := rfl

/-- Claim C2 (amended): input with no non-blank, non-comment lines and
input defeating all three detectors both make the pipeline return `None`;
the two failures are told apart only in the diagnostic log, not in the
returned value. -/
theorem total_failures_both_none :
    parse_mikrotik_logs "" = none
  ∧ parse_mikrotik_logs "# note\n \n" = none
  ∧ parse_mikrotik_logs c2Garbage = none :=
  ⟨rfl, rfl, rfl⟩

/-! ### The scenario line (claim C4) -/

def scenarioLine : String :=
  "2023-10-05 08:23:45 src-ip=192.168.1.10 dst-ip=203.0.113.5 protocol=TCP src-port=54321 dst-port=443 bytes=1240"

def scenarioKvFrame : Frame :=
  ⟨["timestamp", "src_ip", "dst_ip", "protocol", "src_port", "dst_port", "bytes"],
   [[("timestamp", Value.dt ⟨2023, 10, 5, 8, 23, 45⟩),
     ("src_ip", Value.str "192.168.1.10"),
     ("dst_ip", Value.str "203.0.113.5"),
     ("protocol", Value.str "TCP"),
     ("src_port", Value.num 54321),
     ("dst_port", Value.num 443),
     ("bytes", Value.num 1240)]]⟩

/-- Claim C4 (code behaviour at the failing input): the pipeline returns
a zero-record frame for the scenario line, because the greedy delimited
parse "succeeds" with the whole comma-free line as a lone header and
never reaches the Key-Value detector; that detector, run on the same
line, yields exactly the one record the claim describes. -/
theorem scenario_line_code_behavior :
    parse_mikrotik_logs scenarioLine = some ⟨[scenarioLine], []⟩
  ∧ kvDetect (contentLines scenarioLine.data) = some scenarioKvFrame :=
  ⟨rfl, rfl⟩

/-! ### Top-N aggregates (claim C6) -/

/-- Claim C6 (amended): every top-N statistic of the engine has at most
10 entries and is sorted by its metric descending.  Equal-metric ties do
not follow the input's first-encounter order — the key-sorted groupby
discards encounter order before the metric sort runs (the counterexample
shows a two-element tie coming out in ascending key order) — and no
particular tie order is asserted here, since the quicksort behind
`sort_values` is not stable in general. -/
theorem topn_stats_amended (df : Frame) :
    topGood (topCountOf "src_ip" df) ∧ topGood (topBytesOf "src_ip" df)
  ∧ topGood (topCountOf "dst_ip" df) ∧ topGood (topBytesOf "dst_ip" df)
  ∧ topGood (topCountOf "dst_port" df) ∧ topGood (topBytesOf "dst_port" df) :=
  ⟨top10_groupSeries_good _ _, top10_groupSeries_good _ _,
   top10_groupSeries_good _ _, top10_groupSeries_good _ _,
   top10_groupSeries_good _ _, top10_groupSeries_good _ _⟩

def c6Frame : Frame :=
  ⟨["src_ip"], [[("src_ip", Value.str "b")], [("src_ip", Value.str "a")]]⟩

/-- Counterexample to C6 as stated: two equal-count keys encountered in
the order `b`, `a` are presented as `a`, `b` — ascending key order, not
original encounter order. -/
theorem topn_tiebreak_not_encounter_order :
    topCountOf "src_ip" c6Frame = [(Value.str "a", 1), (Value.str "b", 1)]
  ∧ specTopCountEncounter "src_ip" c6Frame = [(Value.str "b", 1), (Value.str "a", 1)]
  ∧ topCountOf "src_ip" c6Frame ≠ specTopCountEncounter "src_ip" c6Frame :=
  ⟨rfl, rfl, by decide⟩

/-! ### Day-of-week order (claim C7) -/

/-- Claim C7 (amended): the day-of-week traffic and connection statistics
are keyed by day name, but the keys appear in ascending lexicographic
(alphabetical) order of the names present — not in calendar order. -/
theorem day_of_week_alphabetical (df : Frame) :
    ((connectionsByDayOf df).map Prod.fst).Pairwise vleP
  ∧ ((trafficByDayOf df).map Prod.fst).Pairwise vleP :=
  ⟨groupSeries_keys_pairwise _ _, groupSeries_keys_pairwise _ _⟩

def c7Frame : Frame :=
  ⟨["timestamp"],
   [[("timestamp", Value.dt ⟨2023, 10, 6, 1, 0, 0⟩)],
    [("timestamp", Value.dt ⟨2023, 10, 2, 5, 0, 0⟩)]]⟩

/-- Counterexample to C7 as stated: records on a Friday and a Monday are
presented with `Friday` first (alphabetical order), while the claim's
calendar order would put `Monday` first. -/
theorem day_of_week_not_calendar_order :
    (connectionsByDayOf c7Frame).map Prod.fst = [Value.str "Friday", Value.str "Monday"]
  ∧ specCalendarDayKeys c7Frame = [Value.str "Monday", Value.str "Friday"]
  ∧ (connectionsByDayOf c7Frame).map Prod.fst ≠ specCalendarDayKeys c7Frame :=
  ⟨rfl, rfl, by decide⟩

/-! ### Token overwrite of the regex timestamp (claim C10) -/

theorem lookup_fold_set (ps : List (String × String)) (init : Record) (k : String) :
    lookupR (ps.foldl (fun d p => setR d p.1 (Value.str p.2)) init) k =
      (match (ps.filter (fun p => p.1 = k)).getLast? with
       | some q => some (Value.str q.2)
       | none => lookupR init k) := by
  induction ps generalizing init with
  | nil => rfl
  | cons p ps' ih =>
    rw [List.foldl_cons, ih]
    by_cases hp : p.1 = k
    · rw [List.filter_cons, if_pos (by simpa using hp)]
      cases hfl : ps'.filter (fun q => q.1 = k) with
      | nil =>
        show lookupR (setR init p.1 (Value.str p.2)) k = some (Value.str p.2)
        rw [hp, lookupR_setR_eq]
      | cons q l =>
        rw [List.getLast?_cons_cons]
        cases hgl : (q :: l).getLast? with
        | none => exact absurd (List.getLast?_eq_none_iff.mp hgl) (by simp)
        | some z => rfl
    · rw [List.filter_cons, if_neg (by simpa using hp)]
      cases hfl : ps'.filter (fun q => q.1 = k) with
      | nil =>
        show lookupR (setR init p.1 (Value.str p.2)) k = lookupR init k
        exact lookupR_setR_ne _ _ _ _ hp
      | cons q l => rfl

/-- Claim C10: on a line with both a regex-recognized timestamp substring
and `timestamp=...` tokens, the record's timestamp field holds the (last)
token's raw string value, because the key=value tokens are written into
the dict after the regex-extracted timestamp. -/
theorem kv_token_overwrites_regex_timestamp (line : List Char) (t : DateTime) (v : String)
    (ht : extractTimestamp line = some t)
    (hv : ((kvLinePairs line).filter (fun p => p.1 = "timestamp")).getLast?
        = some ("timestamp", v)) :
    lookupR (kvLineRecord line) "timestamp" = some (Value.str v) := by
  unfold kvLineRecord
  rw [lookup_fold_set, hv]

def c10Line : List Char := "2023-10-05 08:23:45 timestamp=x9".data

/-- Witness for C10: the line carries both a parsed timestamp substring
and an explicit token; the token's raw value wins. -/
theorem kv_token_overwrites_regex_timestamp_witness :
    lookupR (kvLineRecord c10Line) "timestamp" = some (Value.str "x9") :=
  kv_token_overwrites_regex_timestamp c10Line ⟨2023, 10, 5, 8, 23, 45⟩ "x9" rfl rfl

/-! ### Round-trip behaviour of the Key-Value detector (claim C9) -/

theorem takeWhile_ne_nil_exists {p : Char → Bool} {l : List Char}
    (h : l.takeWhile p ≠ []) : ∃ c ∈ l, p c = true := by
  cases l with
  | nil => simp [List.takeWhile] at h
  | cons c t =>
    by_cases hc : p c
    · exact ⟨c, List.mem_cons_self _ _, hc⟩
    · rw [List.takeWhile_cons, if_neg (by simpa using hc)] at h
      exact absurd rfl h

theorem takeWhile_all {p : Char → Bool} :
    ∀ {l : List Char}, (∀ c ∈ l, p c = true) → l.takeWhile p = l := by
  intro l
  induction l with
  | nil => intro _; rfl
  | cons c t ih =>
    intro h
    rw [List.takeWhile_cons, if_pos (h c (List.mem_cons_self _ _)),
      ih (fun d hd => h d (List.mem_cons_of_mem _ hd))]

theorem takeWs1_has_ws {cs : List Char} {pr : List Char × List Char}
    (h : takeWs1 cs = some pr) : ∃ c ∈ cs, c.isWhitespace = true := by
  unfold takeWs1 at h
  by_cases hw : cs.takeWhile Char.isWhitespace = []
  · simp [hw] at h
  · exact takeWhile_ne_nil_exists hw

theorem takeExact_rest {p : Char → Bool} {n : Nat} {cs : List Char}
    {pr : List Char × List Char} (h : takeExact p n cs = some pr) :
    ∀ c ∈ pr.2, c ∈ cs := by
  unfold takeExact at h
  dsimp only at h
  by_cases hc : (List.take n cs).length = n ∧ (List.take n cs).all p = true
  · rw [if_pos hc] at h
    cases h
    exact fun c hcm => List.mem_of_mem_drop hcm
  · rw [if_neg hc] at h
    cases h

theorem takeLit_rest {ch : Char} {cs : List Char} {r : List Char}
    (h : takeLit ch cs = some r) : ∀ c ∈ r, c ∈ cs := by
  cases cs with
  | nil => cases h
  | cons d t =>
    unfold takeLit at h
    dsimp only at h
    by_cases hd : d = ch
    · rw [if_pos hd] at h
      cases h
      exact fun c hc => List.mem_cons_of_mem _ hc
    · rw [if_neg hd] at h
      cases h

theorem takeDigits12_rest {cs : List Char} {pr : List Char × List Char}
    (h : takeDigits12 cs = some pr) : ∀ c ∈ pr.2, c ∈ cs := by
  unfold takeDigits12 at h
  dsimp only at h
  by_cases hc : (List.takeWhile Char.isDigit cs).length = 1 ∨
      (List.takeWhile Char.isDigit cs).length = 2
  · rw [if_pos hc] at h
    cases h
    exact fun c hcm => List.mem_of_mem_drop hcm
  · rw [if_neg hc] at h
    cases h

/-- Every string the first timestamp pattern matches contains whitespace
(the `\s+` between date and time). -/
theorem matchTS1_has_ws {cs m : List Char} (h : matchTS1 cs = some m) :
    ∃ c ∈ cs, c.isWhitespace = true := by
  unfold matchTS1 at h
  simp only [Option.bind_eq_some, Option.pure_def, Option.some.injEq, bind] at h
  obtain ⟨⟨y, r1⟩, h1, h⟩ := h
  obtain ⟨r2, h2, h⟩ := h
  obtain ⟨⟨mo, r3⟩, h3, h⟩ := h
  obtain ⟨r4, h4, h⟩ := h
  obtain ⟨⟨d, r5⟩, h5, h⟩ := h
  obtain ⟨⟨w, r6⟩, h6, h⟩ := h
  obtain ⟨c, hc, hcw⟩ := takeWs1_has_ws h6
  refine ⟨c, ?_, hcw⟩
  exact takeExact_rest h1 _ (takeLit_rest h2 _ (takeExact_rest h3 _
    (takeLit_rest h4 _ (takeExact_rest h5 _ hc))))

theorem matchTS2_has_ws {cs m : List Char} (h : matchTS2 cs = some m) :
    ∃ c ∈ cs, c.isWhitespace = true := by
  unfold matchTS2 at h
  simp only [Option.bind_eq_some, Option.pure_def, Option.some.injEq, bind] at h
  obtain ⟨⟨mon, r1⟩, h1, h⟩ := h
  obtain ⟨⟨w1, r2⟩, h2, h⟩ := h
  obtain ⟨c, hc, hcw⟩ := takeWs1_has_ws h2
  exact ⟨c, takeExact_rest h1 _ hc, hcw⟩

theorem matchTS3_has_ws {cs m : List Char} (h : matchTS3 cs = some m) :
    ∃ c ∈ cs, c.isWhitespace = true := by
  unfold matchTS3 at h
  simp only [Option.bind_eq_some, Option.pure_def, Option.some.injEq, bind] at h
  obtain ⟨⟨d1, r1⟩, h1, h⟩ := h
  obtain ⟨r2, h2, h⟩ := h
  obtain ⟨⟨d2, r3⟩, h3, h⟩ := h
  obtain ⟨r4, h4, h⟩ := h
  obtain ⟨⟨y, r5⟩, h5, h⟩ := h
  obtain ⟨⟨w, r6⟩, h6, h⟩ := h
  obtain ⟨c, hc, hcw⟩ := takeWs1_has_ws h6
  refine ⟨c, ?_, hcw⟩
  exact takeDigits12_rest h1 _ (takeLit_rest h2 _ (takeDigits12_rest h3 _
    (takeLit_rest h4 _ (takeExact_rest h5 _ hc))))

theorem searchWith_none_of (m : List Char → Option (List Char))
    (hm : ∀ l x, m l = some x → ∃ c ∈ l, c.isWhitespace = true) :
    ∀ {cs : List Char}, (∀ c ∈ cs, c.isWhitespace = false) →
      searchWith m cs = none := by
  intro cs
  induction cs with
  | nil => intro _; rfl
  | cons c t ih =>
    intro h
    have hm1 : m (c :: t) = none := by
      cases hx : m (c :: t) with
      | none => rfl
      | some x =>
        obtain ⟨d, hd, hdw⟩ := hm _ _ hx
        rw [h d hd] at hdw
        cases hdw
    unfold searchWith
    rw [hm1]
    exact ih (fun d hd => h d (List.mem_cons_of_mem _ hd))

/-- A line without any whitespace matches none of the three timestamp
patterns: each requires a `\s+` separator. -/
theorem extractTimestamp_noWs {cs : List Char}
    (h : ∀ c ∈ cs, c.isWhitespace = false) : extractTimestamp cs = none := by
  unfold extractTimestamp extractTimestampStr
  rw [searchWith_none_of matchTS1 (fun l x hx => matchTS1_has_ws hx) h,
    searchWith_none_of matchTS2 (fun l x hx => matchTS2_has_ws hx) h,
    searchWith_none_of matchTS3 (fun l x hx => matchTS3_has_ws hx) h]
  rfl

theorem kvScan_nil (f : Nat) : kvScan f [] = [] := by cases f <;> rfl

theorem kvScan_succ_cons (f : Nat) (c : Char) (t : List Char) :
    kvScan (f + 1) (c :: t) = (match kvTry (c :: t) with
      | some (k, v, rest) => (k, v) :: kvScan f rest
      | none => kvScan f t) := rfl

theorem kvTry_single_token (c0 : Char) (cs' : List Char)
    (hq : c0 ≠ '"')
    (hval : ∀ c ∈ c0 :: cs', isValChar c = true) :
    kvTry ("timestamp=".data ++ c0 :: cs')
      = some ("timestamp".data, c0 :: cs', []) := by
  have h1 : kvTry ("timestamp=".data ++ c0 :: cs')
      = (if (c0 :: cs').head? = some '"' then
          (let more := (c0 :: cs').drop 1
           let inner := more.takeWhile (fun c => c ≠ '"')
           (match more.drop inner.length with
            | '"' :: rest2 => some ("timestamp".data, '"' :: (inner ++ ['"']), rest2)
            | _ => none))
        else
          (let v := (c0 :: cs').takeWhile isValChar
           if v = [] then none
           else some ("timestamp".data, v, (c0 :: cs').drop v.length))) := rfl
  rw [h1, if_neg (by simp [hq])]
  rw [takeWhile_all hval]
  dsimp only
  rw [if_neg (by simp), List.drop_length]

/-- The findall scan of a serialized `timestamp=<value>` token whose value
is whitespace- and quote-free yields exactly that one pair. -/
theorem kvFindall_single_token (cs : List Char) (hne : cs ≠ [])
    (hcs : ∀ c ∈ cs, c.isWhitespace = false ∧ c ≠ '"') :
    kvFindall ("timestamp=".data ++ cs) = [("timestamp".data, cs)] := by
  obtain ⟨c0, cs', rfl⟩ : ∃ c0 cs', cs = c0 :: cs' := by
    cases cs with
    | nil => exact absurd rfl hne
    | cons a b => exact ⟨a, b, rfl⟩
  have hval : ∀ c ∈ c0 :: cs', isValChar c = true := by
    intro c hc
    have h := hcs c hc
    unfold isValChar
    simp [h.1, h.2]
  have htry := kvTry_single_token c0 cs' (hcs c0 (List.mem_cons_self _ _)).2 hval
  have hL : "timestamp=".data ++ c0 :: cs' = 't' :: ("imestamp=".data ++ c0 :: cs') := rfl
  have hlen : ("timestamp=".data ++ c0 :: cs').length = (9 + (c0 :: cs').length) + 1 := by
    rw [List.length_append]
    have h10 : ("timestamp=".data).length = 10 := rfl
    rw [h10]
    omega
  unfold kvFindall
  rw [hlen, hL, kvScan_succ_cons, ← hL, htry]
  dsimp only
  rw [kvScan_nil]

/-- Claim C9 (amended): re-running the Key-Value detector's line parse on
a re-serialized `timestamp=<ISO value>` token leaves the timestamp field
holding the raw serialized string (a string value): no instant is
re-extracted, because an ISO `T`-separated timestamp contains no
whitespace while every timestamp pattern demands a `\s+` separator.  The
hypotheses cover every ISO-format value (whitespace- and quote-free). -/
theorem kv_roundtrip_iso_string_amended (cs : List Char) (hne : cs ≠ [])
    (hcs : ∀ c ∈ cs, c.isWhitespace = false ∧ c ≠ '"') :
    kvLineRecord ("timestamp=".data ++ cs) = [("timestamp", Value.str (String.mk cs))] := by
  have hpre : ∀ c ∈ "timestamp=".data, c.isWhitespace = false := by decide
  have hlw : ∀ c ∈ "timestamp=".data ++ cs, c.isWhitespace = false := by
    intro c hc
    rcases List.mem_append.mp hc with h | h
    · exact hpre c h
    · exact (hcs c h).1
  have hts : tsInit ("timestamp=".data ++ cs) = [] := by
    unfold tsInit
    rw [extractTimestamp_noWs hlw]
  have hsq : stripQuotes cs = cs := by
    cases cs with
    | nil => exact absurd rfl hne
    | cons c0 cs' =>
      unfold stripQuotes
      rw [if_neg]
      intro hcon
      have := (hcs c0 (List.mem_cons_self _ _)).2
      simp at hcon
      exact this hcon.1
  have hfa := kvFindall_single_token cs hne hcs
  unfold kvLineRecord kvLinePairs
  rw [hfa, hts]
  dsimp only [List.map, List.foldl]
  rw [hsq]
  rfl

/-- Witness for the amended C9, at the ISO serialization of the scenario
timestamp. -/
theorem kv_roundtrip_iso_string_amended_witness :
    kvLineRecord ("timestamp=".data ++ "2023-10-05T08:23:45".data)
      = [("timestamp", Value.str (String.mk "2023-10-05T08:23:45".data))] :=
  kv_roundtrip_iso_string_amended "2023-10-05T08:23:45".data (by decide) (by decide)

/-! Re-serialization of a detector record as key=value text, for the C9
counterexample (the spec's round-trip property quantifies over the
detector's own records re-serialized with an ISO-format timestamp). -/

def pad2 (n : Nat) : String :=
  String.mk [Nat.digitChar (n / 10 % 10), Nat.digitChar (n % 10)]

def pad4 (n : Nat) : String :=
  String.mk [Nat.digitChar (n / 1000 % 10), Nat.digitChar (n / 100 % 10),
    Nat.digitChar (n / 10 % 10), Nat.digitChar (n % 10)]

/-- ISO 8601 text of a datetime (`T`-separated, as Python `isoformat`). -/
def isoDT (d : DateTime) : String :=
  pad4 d.year ++ "-" ++ pad2 d.month ++ "-" ++ pad2 d.day ++ "T"
    ++ pad2 d.hour ++ ":" ++ pad2 d.minute ++ ":" ++ pad2 d.second

def valText : Value → String
  | .str s => s
  | .num n => toString n
  | .dt d => isoDT d
  | .null => ""

/-- A record re-serialized as space-separated `key=value` text. -/
def serializeRecord (r : Record) : String :=
  String.intercalate " " (r.map (fun p => p.1 ++ "=" ++ valText p.2))

def c9RoundLine : String :=
  serializeRecord (scenarioKvFrame.rows.getD 0 [])

set_option maxRecDepth 4000 in
/-- Counterexample to C9 as stated: the detector's own scenario record
carries the datetime instant, but re-running the detector on its
re-serialized key=value text (ISO-format timestamp field) leaves the
timestamp field as the raw ISO string — a string value, not the
re-extracted instant. -/
theorem kv_roundtrip_not_same_instant :
    lookupR (scenarioKvFrame.rows.getD 0 []) "timestamp"
      = some (Value.dt ⟨2023, 10, 5, 8, 23, 45⟩)
  ∧ (kvDetect [c9RoundLine.data]).map (fun f => f.rows.map (fun r => lookupR r "timestamp"))
      = some [some (Value.str "2023-10-05T08:23:45")]
  ∧ Value.str "2023-10-05T08:23:45" ≠ Value.dt ⟨2023, 10, 5, 8, 23, 45⟩ :=
  ⟨rfl, rfl, by decide⟩
